import Mathlib

/-!
Verification of the muxrpc session core (rpc.go, bothways_test.go).

The development shallowly embeds the newer of the two session
implementations found in rpc.go (the one using ByteSource and the
streamCapability constants), together with the ByteSource and frameBuffer
code from the second half of bothways_test.go.  Go machine integers are
modelled as Int or Nat with explicit reduction modulo 2^32 where overflow
matters; byte strings are modelled as lists of characters or lists of
naturals below 256; fallible operations return Option or Except.
-/

namespace Muxrpc

/-- Stream capability, one of streamCapNone, streamCapOnce,
streamCapMultiple (stream.go constants, referenced from rpc.go call
sites). -/
inductive StreamCap where
  | none
  | once
  | multiple
deriving DecidableEq, Repr

/-- Modelled from the spec, section 4.1: the codec.Flag bitfield of the
codec package, which is not under src/.  Bit 0 selects the utf8-string
body kind, bit 1 the json body kind, bit 2 marks end-or-error frames and
bit 3 marks stream frames. -/
structure Flags where
  str : Bool
  json : Bool
  endErr : Bool
  stream : Bool
deriving DecidableEq, Repr

/-- Modelled from the spec, section 4.5: Request.Type.Flags (request.go,
not under src/) sets the stream bit for the streaming call types and
leaves it clear for async. -/
def typeFlags (t : String) : Flags :=
  { str := false, json := false, endErr := false, stream := t != "async" }

/-- CallError is the wire error shape, rpc.go lines 957-962.  Field names
carry the json tags name, message, stack. -/
structure CallError where
  name : String
  message : String
  stack : String
deriving DecidableEq, Repr

/-- Errors observable on a stream terminal slot. -/
inductive RpcErr where
  | sessionTerminated
  | callErr (e : CallError)
  | msg (s : String)
deriving DecidableEq, Repr

/-! ## JSON text layer

json.Marshal and json.Unmarshal of the Go standard library, restricted to
the shapes exchanged for CallError: a flat object whose values are
strings.  The encoder follows encoding/json with its default HTML
escaping; the decoder follows the JSON grammar for such objects (exact
key match; the encoder only ever emits the exact lowercase keys). -/

/-- Lowercase hexadecimal digit, as used by the encoder of encoding/json. -/
def hexDigitChar (n : Nat) : Char :=
  if n < 10 then Char.ofNat (48 + n) else Char.ofNat (87 + n)

/-- Numeric value of one hexadecimal digit. -/
def hexVal (c : Char) : Option Nat :=
  if 48 ≤ c.toNat ∧ c.toNat ≤ 57 then some (c.toNat - 48)
  else if 97 ≤ c.toNat ∧ c.toNat ≤ 102 then some (c.toNat - 87)
  else if 65 ≤ c.toNat ∧ c.toNat ≤ 70 then some (c.toNat - 55)
  else none

/-- Escaping of one character inside a JSON string literal, following the
encoder of encoding/json with HTML escaping enabled: quote, backslash,
newline, carriage return and tab get two-character escapes, the remaining
control characters a lowercase u00XX escape, the HTML-sensitive
characters and the line separators U+2028, U+2029 a six-character escape,
and every other character stands for itself. -/
def escapeChar (c : Char) : List Char :=
  if c = '"' then ['\\', '"']
  else if c = '\\' then ['\\', '\\']
  else if c = '\n' then ['\\', 'n']
  else if c = '\r' then ['\\', 'r']
  else if c = '\t' then ['\\', 't']
  else if c.toNat < 32 then
    ['\\', 'u', '0', '0', hexDigitChar (c.toNat / 16), hexDigitChar (c.toNat % 16)]
  else if c = '<' then ['\\', 'u', '0', '0', '3', 'c']
  else if c = '>' then ['\\', 'u', '0', '0', '3', 'e']
  else if c = '&' then ['\\', 'u', '0', '0', '2', '6']
  else if c.toNat = 8232 then ['\\', 'u', '2', '0', '2', '8']
  else if c.toNat = 8233 then ['\\', 'u', '2', '0', '2', '9']
  else [c]

/-- Escaping of a whole string body. -/
def escapeList : List Char → List Char
  | [] => []
  | c :: cs => escapeChar c ++ escapeList cs

/-- A quoted JSON string literal. -/
def quoteChars (s : List Char) : List Char :=
  '"' :: (escapeList s ++ ['"'])

def nameKey : List Char := ['n', 'a', 'm', 'e']

def messageKey : List Char := ['m', 'e', 's', 's', 'a', 'g', 'e']

def stackKey : List Char := ['s', 't', 'a', 'c', 'k']

/-- One key-value member of a JSON object with a string value. -/
def kvChars (k v : List Char) : List Char :=
  quoteChars k ++ ':' :: quoteChars v

/-- json.Marshal applied to a CallError value: the struct fields are
emitted in declaration order under their json tags. -/
def marshalCallError (e : CallError) : List Char :=
  '{' :: (kvChars nameKey e.name.data ++
    ',' :: (kvChars messageKey e.message.data ++
      ',' :: (kvChars stackKey e.stack.data ++ ['}'])))

/-- Decoder for the body of a JSON string literal, positioned after the
opening quote.  Returns the decoded characters and the input remaining
after the closing quote.  Surrogate escape values are rejected; the
encoder never emits them. -/
def parseStringBody (l : List Char) : Option (List Char × List Char) :=
  match l with
  | [] => none
  | c :: rest =>
    if c = '"' then some ([], rest)
    else if c = '\\' then
      match rest with
      | [] => none
      | d :: r =>
        if d = '"' then (parseStringBody r).map (fun p => ('"' :: p.1, p.2))
        else if d = '\\' then (parseStringBody r).map (fun p => ('\\' :: p.1, p.2))
        else if d = '/' then (parseStringBody r).map (fun p => ('/' :: p.1, p.2))
        else if d = 'b' then (parseStringBody r).map (fun p => (Char.ofNat 8 :: p.1, p.2))
        else if d = 'f' then (parseStringBody r).map (fun p => (Char.ofNat 12 :: p.1, p.2))
        else if d = 'n' then (parseStringBody r).map (fun p => ('\n' :: p.1, p.2))
        else if d = 'r' then (parseStringBody r).map (fun p => ('\r' :: p.1, p.2))
        else if d = 't' then (parseStringBody r).map (fun p => ('\t' :: p.1, p.2))
        else if d = 'u' then
          if r.length < 4 then none
          else
            (hexVal (r.getD 0 '0')).bind (fun da =>
              (hexVal (r.getD 1 '0')).bind (fun db =>
                (hexVal (r.getD 2 '0')).bind (fun dx =>
                  (hexVal (r.getD 3 '0')).bind (fun dy =>
                    if 55296 ≤ 4096 * da + 256 * db + 16 * dx + dy ∧
                        4096 * da + 256 * db + 16 * dx + dy ≤ 57343 then none
                    else (parseStringBody (r.drop 4)).map
                      (fun p => (Char.ofNat (4096 * da + 256 * db + 16 * dx + dy) :: p.1, p.2))))))
        else none
    else if c.toNat < 32 then none
    else (parseStringBody rest).map (fun p => (c :: p.1, p.2))
termination_by l.length
decreasing_by
  all_goals simp [List.length_drop]
  all_goals omega

/-- A complete JSON string literal, starting at the opening quote. -/
def parseStringLit : List Char → Option (List Char × List Char)
  | '"' :: rest => parseStringBody rest
  | _ => none

/-- JSON insignificant whitespace. -/
def jsonWs (c : Char) : Bool :=
  c = ' ' || c = '\t' || c = '\n' || c = '\r'

def skipWs (l : List Char) : List Char :=
  l.dropWhile jsonWs

/-- Members of a JSON object whose values are strings, positioned after
the opening brace (and not facing an immediate closing brace).  The fuel
argument bounds the recursion; callers pass at least the input length. -/
def parseMembersFuel : Nat → List Char → Option (List (List Char × List Char) × List Char)
  | 0, _ => none
  | fuel + 1, l =>
    match parseStringLit (skipWs l) with
    | none => none
    | some (k, r1) =>
      match skipWs r1 with
      | ':' :: r2 =>
        match parseStringLit (skipWs r2) with
        | none => none
        | some (v, r3) =>
          match skipWs r3 with
          | ',' :: r4 => (parseMembersFuel fuel r4).map (fun p => ((k, v) :: p.1, p.2))
          | '}' :: r4 => some ([(k, v)], r4)
          | _ => none
      | _ => none

/-- Zero value of CallError, as json.Unmarshal starts from. -/
def emptyCallError : CallError := { name := "", message := "", stack := "" }

/-- Fold the parsed members into the CallError struct fields, matching
the json tags; later duplicates win, unknown keys are ignored, exactly as
json.Unmarshal does on this struct (the encoder emits exact lowercase
keys, so case-insensitive fallback matching never fires). -/
def applyMembers (ms : List (List Char × List Char)) : CallError :=
  ms.foldl
    (fun e kv =>
      if kv.1 = nameKey then { e with name := String.mk kv.2 }
      else if kv.1 = messageKey then { e with message := String.mk kv.2 }
      else if kv.1 = stackKey then { e with stack := String.mk kv.2 }
      else e)
    emptyCallError

/-- parseError, rpc.go lines 968-982: json.Unmarshal of the body into a
CallError.  The decoder is restricted to flat objects with string values,
the only shape the peer encoder produces. -/
def parseError (l : List Char) : Except String CallError :=
  match skipWs l with
  | [] => Except.error ("error unmarshaling error packet")
  | c :: r =>
    if c = '{' then
      match skipWs r with
      | [] => Except.error ("error unmarshaling error packet")
      | d :: r2 =>
        if d = '}' then
          if (skipWs r2).isEmpty then Except.ok emptyCallError
          else Except.error ("error unmarshaling error packet")
        else
          match parseMembersFuel (l.length + 1) (d :: r2) with
          | some (ms, rest) =>
            if (skipWs rest).isEmpty then Except.ok (applyMembers ms)
            else Except.error ("error unmarshaling error packet")
          | none => Except.error ("error unmarshaling error packet")
    else Except.error ("error unmarshaling error packet")

/-! ### Round-trip lemmas for the JSON text layer -/

theorem hexVal_hexDigitChar : ∀ n, n < 16 → hexVal (hexDigitChar n) = some n := by
  decide

theorem psb_esc_dquote (t : List Char) : parseStringBody ('\\' :: '"' :: t) =
    (parseStringBody t).map (fun p => ('"' :: p.1, p.2)) := by
  rw [parseStringBody]
  simp only [Char.reduceEq, reduceIte]

theorem psb_esc_backslash (t : List Char) : parseStringBody ('\\' :: '\\' :: t) =
    (parseStringBody t).map (fun p => ('\\' :: p.1, p.2)) := by
  rw [parseStringBody]
  simp only [Char.reduceEq, reduceIte]

theorem psb_esc_n (t : List Char) : parseStringBody ('\\' :: 'n' :: t) =
    (parseStringBody t).map (fun p => ('\n' :: p.1, p.2)) := by
  rw [parseStringBody]
  simp only [Char.reduceEq, reduceIte]

theorem psb_esc_r (t : List Char) : parseStringBody ('\\' :: 'r' :: t) =
    (parseStringBody t).map (fun p => ('\r' :: p.1, p.2)) := by
  rw [parseStringBody]
  simp only [Char.reduceEq, reduceIte]

theorem psb_esc_t (t : List Char) : parseStringBody ('\\' :: 't' :: t) =
    (parseStringBody t).map (fun p => ('\t' :: p.1, p.2)) := by
  rw [parseStringBody]
  simp only [Char.reduceEq, reduceIte]

theorem psb_esc_u (a b x y : Char) (da db dx dy : Nat) (t : List Char)
    (ha : hexVal a = some da) (hb : hexVal b = some db)
    (hx : hexVal x = some dx) (hy : hexVal y = some dy)
    (hns : ¬ (55296 ≤ 4096 * da + 256 * db + 16 * dx + dy ∧
      4096 * da + 256 * db + 16 * dx + dy ≤ 57343)) :
    parseStringBody ('\\' :: 'u' :: a :: b :: x :: y :: t) =
      (parseStringBody t).map
        (fun p => (Char.ofNat (4096 * da + 256 * db + 16 * dx + dy) :: p.1, p.2)) := by
  rw [parseStringBody]
  simp [Char.reduceEq, List.getD, ha, hb, hx, hy, if_neg hns]

theorem psb_plain (c : Char) (t : List Char) (h1 : ¬ c = '"') (h2 : ¬ c = '\\')
    (h3 : ¬ c.toNat < 32) :
    parseStringBody (c :: t) = (parseStringBody t).map (fun p => (c :: p.1, p.2)) := by
  rw [parseStringBody.eq_def]
  simp only [if_neg h1, if_neg h2, if_neg h3]

theorem psb_escapeChar_step (c : Char) (t : List Char) :
    parseStringBody (escapeChar c ++ t) =
      (parseStringBody t).map (fun p => (c :: p.1, p.2)) := by
  by_cases h1 : c = '"'
  · subst h1
    rw [show escapeChar '"' ++ t = '\\' :: '"' :: t from rfl]
    exact psb_esc_dquote t
  by_cases h2 : c = '\\'
  · subst h2
    rw [show escapeChar '\\' ++ t = '\\' :: '\\' :: t from rfl]
    exact psb_esc_backslash t
  by_cases h3 : c = '\n'
  · subst h3
    rw [show escapeChar '\n' ++ t = '\\' :: 'n' :: t from rfl]
    exact psb_esc_n t
  by_cases h4 : c = '\r'
  · subst h4
    rw [show escapeChar '\r' ++ t = '\\' :: 'r' :: t from rfl]
    exact psb_esc_r t
  by_cases h5 : c = '\t'
  · subst h5
    rw [show escapeChar '\t' ++ t = '\\' :: 't' :: t from rfl]
    exact psb_esc_t t
  by_cases h6 : c.toNat < 32
  · have he : escapeChar c =
        ['\\', 'u', '0', '0', hexDigitChar (c.toNat / 16), hexDigitChar (c.toNat % 16)] := by
      rw [escapeChar]
      simp only [if_neg h1, if_neg h2, if_neg h3, if_neg h4, if_neg h5, if_pos h6]
    rw [he, show (['\\', 'u', '0', '0', hexDigitChar (c.toNat / 16),
        hexDigitChar (c.toNat % 16)] : List Char) ++ t =
        '\\' :: 'u' :: '0' :: '0' :: hexDigitChar (c.toNat / 16) ::
          hexDigitChar (c.toNat % 16) :: t from rfl]
    have hdiv : c.toNat / 16 < 16 := by omega
    have hmod : c.toNat % 16 < 16 := by omega
    have hstep := psb_esc_u '0' '0' (hexDigitChar (c.toNat / 16)) (hexDigitChar (c.toNat % 16))
      0 0 (c.toNat / 16) (c.toNat % 16) t (by decide) (by decide)
      (hexVal_hexDigitChar _ hdiv) (hexVal_hexDigitChar _ hmod) (by omega)
    have hv : 4096 * 0 + 256 * 0 + 16 * (c.toNat / 16) + c.toNat % 16 = c.toNat := by omega
    rw [hv, Char.ofNat_toNat] at hstep
    exact hstep
  by_cases h7 : c = '<'
  · subst h7
    rw [show escapeChar '<' ++ t = '\\' :: 'u' :: '0' :: '0' :: '3' :: 'c' :: t from rfl,
      psb_esc_u '0' '0' '3' 'c' 0 0 3 12 t (by decide) (by decide) (by decide) (by decide)
        (by omega)]
  by_cases h8 : c = '>'
  · subst h8
    rw [show escapeChar '>' ++ t = '\\' :: 'u' :: '0' :: '0' :: '3' :: 'e' :: t from rfl,
      psb_esc_u '0' '0' '3' 'e' 0 0 3 14 t (by decide) (by decide) (by decide) (by decide)
        (by omega)]
  by_cases h9 : c = '&'
  · subst h9
    rw [show escapeChar '&' ++ t = '\\' :: 'u' :: '0' :: '0' :: '2' :: '6' :: t from rfl,
      psb_esc_u '0' '0' '2' '6' 0 0 2 6 t (by decide) (by decide) (by decide) (by decide)
        (by omega)]
  by_cases h10 : c.toNat = 8232
  · have hc : c = Char.ofNat 8232 := by rw [← h10, Char.ofNat_toNat]
    subst hc
    rw [show escapeChar (Char.ofNat 8232) ++ t =
        '\\' :: 'u' :: '2' :: '0' :: '2' :: '8' :: t from rfl,
      psb_esc_u '2' '0' '2' '8' 2 0 2 8 t (by decide) (by decide) (by decide) (by decide)
        (by omega)]
  by_cases h11 : c.toNat = 8233
  · have hc : c = Char.ofNat 8233 := by rw [← h11, Char.ofNat_toNat]
    subst hc
    rw [show escapeChar (Char.ofNat 8233) ++ t =
        '\\' :: 'u' :: '2' :: '0' :: '2' :: '9' :: t from rfl,
      psb_esc_u '2' '0' '2' '9' 2 0 2 9 t (by decide) (by decide) (by decide) (by decide)
        (by omega)]
  · have he : escapeChar c = [c] := by
      rw [escapeChar]
      simp only [if_neg h1, if_neg h2, if_neg h3, if_neg h4, if_neg h5, if_neg h6,
        if_neg h7, if_neg h8, if_neg h9, if_neg h10, if_neg h11]
    rw [he, show ([c] : List Char) ++ t = c :: t from rfl]
    exact psb_plain c t h1 h2 h6

theorem psb_escape (s : List Char) : ∀ rest : List Char,
    parseStringBody (escapeList s ++ '"' :: rest) = some (s, rest) := by
  induction s with
  | nil =>
    intro rest
    rw [show escapeList [] ++ '"' :: rest = '"' :: rest from rfl, parseStringBody.eq_def]
    simp only [Char.reduceEq, reduceIte]
  | cons c cs ih =>
    intro rest
    rw [escapeList, List.append_assoc, psb_escapeChar_step, ih rest]
    rfl

@[simp]
theorem skipWs_nil : skipWs [] = [] := rfl

theorem skipWs_cons_not_ws (c : Char) (l : List Char) (h : jsonWs c = false) :
    skipWs (c :: l) = c :: l := by
  simp [skipWs, List.dropWhile_cons, h]

@[simp]
theorem skipWs_dquote (l : List Char) : skipWs ('"' :: l) = '"' :: l :=
  skipWs_cons_not_ws _ _ (by decide)

@[simp]
theorem skipWs_colon (l : List Char) : skipWs (':' :: l) = ':' :: l :=
  skipWs_cons_not_ws _ _ (by decide)

@[simp]
theorem skipWs_comma (l : List Char) : skipWs (',' :: l) = ',' :: l :=
  skipWs_cons_not_ws _ _ (by decide)

@[simp]
theorem skipWs_lbrace (l : List Char) : skipWs ('{' :: l) = '{' :: l :=
  skipWs_cons_not_ws _ _ (by decide)

@[simp]
theorem skipWs_rbrace (l : List Char) : skipWs ('}' :: l) = '}' :: l :=
  skipWs_cons_not_ws _ _ (by decide)

@[simp]
theorem parseStringLit_dquote (l : List Char) :
    parseStringLit ('"' :: l) = parseStringBody l := rfl

theorem pmf_cons (f : Nat) (k v rest : List Char) :
    parseMembersFuel (f + 1) (kvChars k v ++ ',' :: rest) =
      (parseMembersFuel f rest).map (fun p => ((k, v) :: p.1, p.2)) := by
  have hshape : kvChars k v ++ ',' :: rest =
      '"' :: (escapeList k ++ '"' ::
        (':' :: ('"' :: (escapeList v ++ '"' :: ',' :: rest)))) := by
    simp [kvChars, quoteChars, List.append_assoc]
  rw [hshape]
  simp only [parseMembersFuel, skipWs_dquote, parseStringLit_dquote, psb_escape,
    skipWs_colon, skipWs_comma]

theorem pmf_last (f : Nat) (k v rest : List Char) :
    parseMembersFuel (f + 1) (kvChars k v ++ '}' :: rest) = some ([(k, v)], rest) := by
  have hshape : kvChars k v ++ '}' :: rest =
      '"' :: (escapeList k ++ '"' ::
        (':' :: ('"' :: (escapeList v ++ '"' :: '}' :: rest)))) := by
    simp [kvChars, quoteChars, List.append_assoc]
  rw [hshape]
  simp only [parseMembersFuel, skipWs_dquote, parseStringLit_dquote, psb_escape,
    skipWs_colon, skipWs_rbrace]

theorem pmf_three (f : Nat) (k1 v1 k2 v2 k3 v3 rest : List Char) :
    parseMembersFuel (f + 3)
      (kvChars k1 v1 ++ ',' :: (kvChars k2 v2 ++ ',' :: (kvChars k3 v3 ++ '}' :: rest)))
      = some ([(k1, v1), (k2, v2), (k3, v3)], rest) := by
  rw [show f + 3 = (f + 2) + 1 from rfl, pmf_cons,
    show f + 2 = (f + 1) + 1 from rfl, pmf_cons, pmf_last]
  rfl

theorem stringMk_data (s : String) : String.mk s.data = s := rfl

/-- C6: a CallError JSON-encoded on one side (json.Marshal with the
struct tags name, message, stack) and fed to parseError on the other side
yields a CallError whose name, message and stack fields equal the
originals exactly, for every CallError value. -/
theorem parseError_marshalCallError (e : CallError) :
    parseError (marshalCallError e) = Except.ok e := by
  have hlen : 2 ≤ (marshalCallError e).length := by
    simp [marshalCallError, kvChars, quoteChars]
  obtain ⟨g, hg⟩ : ∃ g, (marshalCallError e).length + 1 = g + 3 :=
    ⟨(marshalCallError e).length - 2, by omega⟩
  have hshape : marshalCallError e =
      '{' :: (kvChars nameKey e.name.data ++
        ',' :: (kvChars messageKey e.message.data ++
          ',' :: (kvChars stackKey e.stack.data ++ '}' :: []))) := rfl
  have hR : kvChars nameKey e.name.data ++
      ',' :: (kvChars messageKey e.message.data ++
        ',' :: (kvChars stackKey e.stack.data ++ '}' :: [])) =
      '"' :: (escapeList nameKey ++ '"' ::
        (':' :: ('"' :: (escapeList e.name.data ++ '"' ::
          (',' :: (kvChars messageKey e.message.data ++
            ',' :: (kvChars stackKey e.stack.data ++ '}' :: []))))))) := by
    simp [kvChars, quoteChars, List.append_assoc]
  rw [parseError, hg, hshape, hR]
  simp only [skipWs_lbrace, skipWs_dquote, Char.reduceEq, reduceIte]
  rw [← hR, pmf_three g]
  simp only [skipWs_nil, List.isEmpty_nil, if_pos rfl]
  simp only [applyMembers, List.foldl_cons, List.foldl_nil,
    if_pos (rfl : nameKey = nameKey),
    if_neg (by decide : ¬ messageKey = nameKey),
    if_pos (rfl : messageKey = messageKey),
    if_neg (by decide : ¬ stackKey = nameKey),
    if_neg (by decide : ¬ stackKey = messageKey),
    if_pos (rfl : stackKey = stackKey)]
  rfl

/-! ## RPC session model

Shallow embedding of the newer rpc struct of rpc.go: the request table,
the id allocator, the call constructors, ParseRequest, Terminate and the
routing decisions of the serve loop. -/

/-- This sets the buffer size of individual request streams, rpc.go line
451. -/
def bufSize : Nat := 150

/-- Stream endpoint state.  Modelled from the spec, sections 4.3 and 4.4
(stream.go is not under src/): the associated request id, the fixed
capabilities, per-direction closed flags and the inbound terminal error
slot (inErr none together with inClosed means end-of-stream). -/
structure Stream where
  reqId : Int
  inCap : StreamCap
  outCap : StreamCap
  inClosed : Bool
  outClosed : Bool
  inErr : Option RpcErr
deriving DecidableEq, Repr

/-- newStream as called from rpc.go: fourth argument is the input
capability, fifth the output capability. -/
def newStream (reqId : Int) (inCap outCap : StreamCap) : Stream :=
  { reqId := reqId, inCap := inCap, outCap := outCap,
    inClosed := false, outClosed := false, inErr := none }

/-- Request, rpc.go.  inQueueCap records the luigi.WithBuffer capacity of
the req.in pipe when the request has one; none models the legacy path
where req.in is nil and inbound bodies go through req.consume. -/
structure Request where
  type : String
  method : List String
  rawArgs : String
  stream : Stream
  inQueueCap : Option Nat
  id : Int
  aborted : Bool
deriving DecidableEq, Repr

/-- The request built by Async, rpc.go lines 525-549: a luigi pipe of
capacity bufSize, stream capabilities (once, none). -/
def mkAsyncReq (method : List String) (rawArgs : String) : Request :=
  { type := "async", method := method, rawArgs := rawArgs,
    stream := newStream 0 StreamCap.once StreamCap.none,
    inQueueCap := some bufSize, id := 0, aborted := false }

/-- The request built by Sink, rpc.go lines 611-633: pipe of capacity
bufSize, stream capabilities (none, multiple). -/
def mkSinkReq (method : List String) (rawArgs : String) : Request :=
  { type := "sink", method := method, rawArgs := rawArgs,
    stream := newStream 0 StreamCap.none StreamCap.multiple,
    inQueueCap := some bufSize, id := 0, aborted := false }

/-- The request built by Duplex, rpc.go lines 636-660: pipe of capacity
bufSize, stream capabilities (multiple, multiple). -/
def mkDuplexReq (method : List String) (rawArgs : String) : Request :=
  { type := "duplex", method := method, rawArgs := rawArgs,
    stream := newStream 0 StreamCap.multiple StreamCap.multiple,
    inQueueCap := some bufSize, id := 0, aborted := false }

/-- Session state: the reqs table (association list, insert in front and
first match wins, matching map overwrite), the highest allocated id, the
terminated flag, the root context cancellation and the packer closed
flag. -/
structure RpcState where
  reqs : List (Int × Request)
  highest : Int
  terminated : Bool
  cancelled : Bool
  pkrClosed : Bool
deriving DecidableEq, Repr

def initRpc : RpcState :=
  { reqs := [], highest := 0, terminated := false, cancelled := false, pkrClosed := false }

/-- Reduction of an unbounded integer to the signed 32-bit value Go
arithmetic on an int32 produces. -/
def wrap32 (n : Int) : Int :=
  (n + 2147483648) % 4294967296 - 2147483648

/-- Outgoing initiation packet.  The JSON-marshalled body bytes are not
modelled; the claims below concern the flag and the request id. -/
structure Packet where
  flag : Flags
  req : Int
deriving DecidableEq, Repr

def emptyFlags : Flags :=
  { str := false, json := false, endErr := false, stream := false }

def flagsUnion (a b : Flags) : Flags :=
  { str := a.str || b.str, json := a.json || b.json,
    endErr := a.endErr || b.endErr, stream := a.stream || b.stream }

/-- Do, rpc.go lines 681-722, the locked section: set the json flag and
the call-type flags on the packet, increment highest (int32 arithmetic),
use it as the packet request id, store the request under that id and
stamp the id onto the request stream (WithReq). -/
def doStep (s : RpcState) (req : Request) : RpcState × Packet × Request :=
  let flag := flagsUnion (flagsUnion emptyFlags
    { emptyFlags with json := true }) (typeFlags req.type)
  let newId := wrap32 (s.highest + 1)
  let req1 := { req with stream := { req.stream with reqId := newId }, id := newId }
  ({ s with highest := newId, reqs := (newId, req1) :: s.reqs },
   { flag := flag, req := newId }, req1)

/-- n successive Do calls from a state (each with a fresh async request). -/
def doN : Nat → RpcState → RpcState
  | 0, s => s
  | n + 1, s => doN n (doStep s (mkAsyncReq ["whoami"] "[]")).1

/-- The request id allocated by the n-th Do call of a session (n counted
from 1). -/
def nthAllocatedId (n : Nat) : Int :=
  (doN n initRpc).highest

/-- ErrSessionTerminated, rpc.go line 662. -/
def ErrSessionTerminated : RpcErr := RpcErr.sessionTerminated

/-- Modelled from the spec, section 4.4 (request.go is not under src/):
Request.CloseWithError fails the request on both sides; a nil error
closes the inbound direction with end-of-stream. -/
def requestCloseWithError (req : Request) (e : Option RpcErr) : Request :=
  { req with stream :=
    { req.stream with inClosed := true, outClosed := true, inErr := e } }

/-- Terminate, rpc.go lines 665-678: cancel the root context, set
terminated, close every request still in the reqs table with
ErrSessionTerminated, close the packer. -/
def terminate (s : RpcState) : RpcState :=
  { s with
    cancelled := true
    terminated := true
    reqs := s.reqs.map (fun p => (p.1, requestCloseWithError p.2 (some ErrSessionTerminated)))
    pkrClosed := true }

/-- Result of one NextHeader read in the serve loop, rpc.go lines
831-859. -/
inductive ReadResult where
  | eos
  | alreadyClosed
  | readErr (e : String)
  | header (req : Int) (flag : Flags) (body : List Char)
deriving DecidableEq, Repr

/-- The read dispatch of the serve loop: some none means the loop calls
Terminate and Serve returns a nil error, some (some e) means Serve
returns the error e, none means the frame is processed.  EOS and
already-closed errors are absorbed unconditionally; any other read error
is absorbed exactly when terminated is set. -/
def serveReadCheck (terminated : Bool) : ReadResult → Option (Option String)
  | ReadResult.eos => some none
  | ReadResult.alreadyClosed => some none
  | ReadResult.readErr e =>
    if terminated then some none
    else some (some ("serve failed to read from packer: " ++ e))
  | ReadResult.header _ _ _ => none

/-- isTrue, rpc.go lines 777-783: the body is exactly the four bytes of
the word true. -/
def isTrue (data : List Char) : Bool :=
  data == ['t', 'r', 'u', 'e']

/-- Outcome of the endOrError branch of the serve loop. -/
inductive EndErrStep where
  | cont (s : RpcState) (closed : Option Request)
  | fatal (e : String)
deriving DecidableEq, Repr

/-- closeStream, rpc.go lines 941-951: CloseWithError on the request,
then delete it from the reqs table under its own id. -/
def closeStreamStep (s : RpcState) (req : Request) (streamErr : Option RpcErr) :
    RpcState × Request :=
  let req1 := requestCloseWithError req streamErr
  ({ s with reqs := s.reqs.filter (fun p => p.1 ≠ req.id) }, req1)

/-- The endOrError branch of the serve loop, rpc.go lines 862-900: if the
id is unknown only a warning is logged; otherwise the handler context is
cancelled (req.abort), a body equal to the literal true closes the stream
with a nil error (end-of-stream), any other body is parsed as a CallError
and closes the stream with it, and a parse failure is fatal to the
session. -/
def serveEndErr (s : RpcState) (reqId : Int) (body : List Char) : EndErrStep :=
  match s.reqs.lookup reqId with
  | none => EndErrStep.cont s none
  | some req =>
    let req1 := { req with aborted := true }
    if isTrue body then
      let p := closeStreamStep s req1 none
      EndErrStep.cont p.1 (some p.2)
    else
      match parseError body with
      | Except.ok ce =>
        let p := closeStreamStep s req1 (some (RpcErr.callErr ce))
        EndErrStep.cont p.1 (some p.2)
      | Except.error e => EndErrStep.fatal ("error parsing error packet: " ++ e)

/-- Outcome of routing a payload (non endOrError) frame. -/
inductive PayloadStep where
  | newRequest
  | consumed (req : Request)
  | delivered (req : Request)
  | protocolError (e : String)
deriving DecidableEq, Repr

/-- The payload branch of the serve loop, rpc.go lines 902-937: an
unknown id starts a new request; for a known request the loop checks only
whether req.in is nil (legacy consume path) and otherwise pours the
packet into the inbound queue.  The input capability of the stream is
never inspected, so the protocolError outcome is never produced. -/
def servePayload (s : RpcState) (reqId : Int) : PayloadStep :=
  match s.reqs.lookup reqId with
  | none => PayloadStep.newRequest
  | some req =>
    match req.inQueueCap with
    | none => PayloadStep.consumed req
    | some _ => PayloadStep.delivered req

/-- Incoming frame header, codec.Header: flag, request id and body
length. -/
structure Header where
  flag : Flags
  req : Int
  len : Nat
deriving DecidableEq, Repr

/-- The decoded JSON body of an initiation packet: name (the method
path), type and args. -/
structure ReqBody where
  name : List String
  type : String
  args : String
deriving DecidableEq, Repr

/-- ParseRequest, rpc.go lines 725-775.  The json.Decode of the body is
the standard library; its result is passed in as an Except value.  The
checks and the capability table follow the source: JSON flag required,
request id must be negative, then with the stream flag the type selects
(multiple, multiple) for duplex, (none, multiple) for source, (multiple,
none) for sink; without the stream flag an empty type defaults to async
and only async is accepted, with capabilities (none, once). -/
def mkIncomingReq (t : String) (rb : ReqBody) (reqId : Int) (inC outC : StreamCap) : Request :=
  { type := t, method := rb.name, rawArgs := rb.args,
    stream := newStream reqId inC outC,
    inQueueCap := some bufSize, id := reqId, aborted := false }

def parseRequest (hdr : Header) (body : Except String ReqBody) : Except String Request :=
  if ¬ hdr.flag.json then Except.error ("expected JSON flag")
  else if 0 ≤ hdr.req then Except.error ("expected negative request id")
  else
    match body with
    | Except.error e => Except.error ("error decoding packet: " ++ e)
    | Except.ok rb =>
      if hdr.flag.stream then
        if rb.type = "duplex" then
          Except.ok (mkIncomingReq rb.type rb hdr.req StreamCap.multiple StreamCap.multiple)
        else if rb.type = "source" then
          Except.ok (mkIncomingReq rb.type rb hdr.req StreamCap.none StreamCap.multiple)
        else if rb.type = "sink" then
          Except.ok (mkIncomingReq rb.type rb hdr.req StreamCap.multiple StreamCap.none)
        else Except.error ("unhandled request type: " ++ rb.type)
      else
        let t := if rb.type = "" then "async" else rb.type
        if t ≠ "async" then Except.error ("unhandled request type: " ++ t)
        else Except.ok (mkIncomingReq t rb hdr.req StreamCap.none StreamCap.once)

/-! ## ByteSource model

The ByteSource of the second half of bothways_test.go.  The state keeps
the failed error slot and whether the closed channel has been closed;
closing a Go channel twice is a runtime panic, which the operations
report in their boolean component. -/

inductive BSErr where
  | eos
  | err (s : String)
deriving DecidableEq, Repr

structure ByteSourceState where
  failed : Option BSErr
  closedChClosed : Bool
deriving DecidableEq, Repr

def bsInit : ByteSourceState := { failed := none, closedChClosed := false }

/-- ByteSource.CloseWithError, bothways_test.go lines 612-621: without
checking any previous state it stores luigi.EOS for a nil error and the
error otherwise into failed, then closes the closed channel.  The boolean
is true when this close panics because the channel was already closed. -/
def bsCloseWithError (s : ByteSourceState) (e : Option BSErr) : ByteSourceState × Bool :=
  let f := match e with
    | none => BSErr.eos
    | some x => x
  ({ failed := some f, closedChClosed := true }, s.closedChClosed)

/-- ByteSource.Close, bothways_test.go lines 623-625. -/
def bsClose (s : ByteSourceState) : ByteSourceState × Bool :=
  bsCloseWithError s none

/-- ByteSource.Cancel, bothways_test.go lines 599-610: a no-op when
failed is already set, otherwise CloseWithError. -/
def bsCancel (s : ByteSourceState) (e : Option BSErr) : ByteSourceState × Bool :=
  if s.failed.isSome then (s, false)
  else bsCloseWithError s e

/-! ## frameBuffer model

The frameBuffer of the second half of bothways_test.go: a byte store
holding length-prefixed frames, the progress counters of the frame
currently being read, and the frame counter. -/

/-- binary.LittleEndian.PutUint32. -/
def le32 (n : Nat) : List Nat :=
  [n % 256, n / 256 % 256, n / 65536 % 256, n / 16777216 % 256]

/-- binary.LittleEndian.Uint32. -/
def de32 (l : List Nat) : Nat :=
  l.getD 0 0 + 256 * l.getD 1 0 + 65536 * l.getD 2 0 + 16777216 * l.getD 3 0

structure FrameBufferState where
  store : List Nat
  currentFrameTotal : Nat
  currentFrameRead : Nat
  frames : Nat
deriving DecidableEq, Repr

def fbInit : FrameBufferState :=
  { store := [], currentFrameTotal := 0, currentFrameRead := 0, frames := 0 }

/-- copyBody, bothways_test.go lines 729-753: write the little-endian
length prefix, copy the body, then check that the copied count equals
pktLen modulo 2^32; frames is incremented only after a successful check.
The boolean is false on the length-mismatch error. -/
def copyBody (pktLen : Nat) (body : List Nat) (s : FrameBufferState) :
    FrameBufferState × Bool :=
  let s1 := { s with store := s.store ++ le32 pktLen ++ body }
  if body.length % 4294967296 = pktLen then ({ s1 with frames := s1.frames + 1 }, true)
  else (s1, false)

/-- getNextFrameReader, bothways_test.go lines 774-805: when a previous
frame is current, discard its unread remainder from the store; then read
the four length-prefix bytes (the read fails when the buffer is empty; a
nonempty store of fewer than four bytes never occurs for length-prefixed
content and is treated as the same failure), decode the length, reset the
read counters and hand out the frame bytes, decrementing frames.  The
frame body stays in the store; the returned reader drains it through
consumeFrame. -/
def getNextFrameReader (s : FrameBufferState) :
    Except String (Nat × List Nat × FrameBufferState) :=
  let store1 :=
    if s.currentFrameTotal ≠ 0 then
      s.store.drop (s.currentFrameTotal - s.currentFrameRead)
    else s.store
  if store1.length < 4 then Except.error ("EOF")
  else
    let pktLen := de32 (store1.take 4)
    let store2 := store1.drop 4
    Except.ok (pktLen, store2.take pktLen,
      { store := store2, currentFrameTotal := pktLen, currentFrameRead := 0,
        frames := s.frames - 1 })

/-- Reading k bytes from the reader returned by getNextFrameReader: the
countingReader advances currentFrameRead by what was actually read, and
the LimitReader caps it by the remaining frame bytes and by the store
content. -/
def consumeFrame (k : Nat) (s : FrameBufferState) : FrameBufferState :=
  let avail := min (s.currentFrameTotal - s.currentFrameRead) s.store.length
  let k1 := min k avail
  { s with store := s.store.drop k1, currentFrameRead := s.currentFrameRead + k1 }

/-- One frameBuffer operation: a copyBody of one body (with the matching
length argument, as the serve loop passes hdr.Len with a reader limited
to hdr.Len), or a getNextFrameReader whose returned reader is then read
for k bytes. -/
inductive FBOp where
  | copy (body : List Nat)
  | get (k : Nat)
deriving DecidableEq, Repr

/-- Run a sequence of frameBuffer operations, collecting for every get
the reported length and the frame bytes offered by the reader (none when
getNextFrameReader fails). -/
def fbRun : FrameBufferState → List FBOp → FrameBufferState × List (Option (Nat × List Nat))
  | s, [] => (s, [])
  | s, FBOp.copy b :: ops => fbRun (copyBody b.length b s).1 ops
  | s, FBOp.get k :: ops =>
    match getNextFrameReader s with
    | Except.error _ =>
      let p := fbRun s ops
      (p.1, none :: p.2)
    | Except.ok (n, fr, s1) =>
      let p := fbRun (consumeFrame k s1) ops
      (p.1, some (n, fr) :: p.2)

/-- The first-in-first-out specification: copies enqueue the body, every
get dequeues the oldest body and reports its length.  Returns the get
results and the final queue. -/
def fifoRun : List (List Nat) → List FBOp →
    List (Option (Nat × List Nat)) × List (List Nat)
  | q, [] => ([], q)
  | q, FBOp.copy b :: ops => fifoRun (q ++ [b]) ops
  | q, FBOp.get _ :: ops =>
    match q with
    | [] =>
      let p := fifoRun [] ops
      (none :: p.1, p.2)
    | b :: q1 =>
      let p := fifoRun q1 ops
      (some (b.length, b) :: p.1, p.2)

/-- Validity of an operation sequence against a pending queue: bodies fit
in a uint32 length and no get runs against an empty buffer. -/
def validOps : List (List Nat) → List FBOp → Bool
  | _, [] => true
  | q, FBOp.copy b :: ops => decide (b.length < 4294967296) && validOps (q ++ [b]) ops
  | q, FBOp.get _ :: ops => !q.isEmpty && validOps q.tail ops

def countCopies : List FBOp → Nat
  | [] => 0
  | FBOp.copy _ :: ops => countCopies ops + 1
  | FBOp.get _ :: ops => countCopies ops

def countGets : List FBOp → Nat
  | [] => 0
  | FBOp.copy _ :: ops => countGets ops
  | FBOp.get _ :: ops => countGets ops + 1

/-- A frame as stored: little-endian length prefix followed by the
body. -/
def encFrame (b : List Nat) : List Nat := le32 b.length ++ b

/-- The coupling between a frameBuffer state and the FIFO queue view: r
is the unread remainder of the current frame, q the stored frames not yet
handed out. -/
def Aligned (s : FrameBufferState) (r : List Nat) (q : List (List Nat)) : Prop :=
  s.store = r ++ (q.map encFrame).flatten ∧
  s.currentFrameRead ≤ s.currentFrameTotal ∧
  s.currentFrameTotal - s.currentFrameRead = r.length ∧
  s.frames = q.length ∧
  (∀ b ∈ q, b.length < 4294967296)

/-! ## Request id allocation (claim C1) -/

theorem wrap32_add (x k : Int) : wrap32 (wrap32 x + k) = wrap32 (x + k) := by
  unfold wrap32
  omega

theorem wrap32_eq_self (n : Int) (h1 : -2147483648 ≤ n) (h2 : n < 2147483648) :
    wrap32 n = n := by
  unfold wrap32
  omega

theorem doN_highest : ∀ (n : Nat) (s : RpcState),
    (doN (n + 1) s).highest = wrap32 (s.highest + (n + 1 : Nat)) := by
  intro n
  induction n with
  | zero =>
    intro s
    simp [doN, doStep]
  | succ m ih =>
    intro s
    have hstep : doN (m + 1 + 1) s = doN (m + 1) (doStep s (mkAsyncReq ["whoami"] "[]")).1 := rfl
    rw [hstep, ih]
    have hh : ((doStep s (mkAsyncReq ["whoami"] "[]")).1).highest = wrap32 (s.highest + 1) := rfl
    rw [hh, wrap32_add]
    congr 1
    push_cast
    ring

theorem nthAllocatedId_eq (n : Nat) (h : 1 ≤ n) : nthAllocatedId n = wrap32 (n : Int) := by
  obtain ⟨m, rfl⟩ : ∃ m, n = m + 1 := ⟨n - 1, by omega⟩
  unfold nthAllocatedId
  rw [doN_highest m initRpc]
  simp [initRpc]

/-- C1 counterexample: the highest counter is a Go int32, so after
2147483647 allocations the next Do call wraps and allocates the id
-2147483648, which is neither positive nor larger than its predecessor.
This refutes the claim that all ids allocated by Do are strictly
increasing and positive. -/
theorem do_ids_overflow_counterexample :
    nthAllocatedId 2147483647 = 2147483647 ∧
    nthAllocatedId 2147483648 = -2147483648 ∧
    ¬ (0 < nthAllocatedId 2147483648) ∧
    ¬ (nthAllocatedId 2147483647 < nthAllocatedId 2147483648) := by
  have h1 : nthAllocatedId 2147483647 = wrap32 2147483647 := by
    rw [nthAllocatedId_eq 2147483647 (by norm_num)]
    norm_num
  have h2 : nthAllocatedId 2147483648 = wrap32 2147483648 := by
    rw [nthAllocatedId_eq 2147483648 (by norm_num)]
    norm_num
  unfold wrap32 at h1 h2
  norm_num at h1 h2
  refine ⟨h1, h2, ?_, ?_⟩ <;> omega

/-- C1 (amended): request ids allocated by Do on one side of a session
are strictly increasing and positive for the first 2147483647
allocations; the highest counter is a signed 32-bit integer, so the
allocation after that wraps around to -2147483648.  Each Do call, in its
locked section, increments highest with int32 arithmetic, uses the new
value as the initiation packet request id, sets the json flag on that
packet, stores the request in the reqs table under the new id, and stamps
the same id onto the request stream and the request itself. -/
theorem do_ids_strictly_increasing_before_overflow :
    (∀ i j : Nat, 1 ≤ i → i < j → j ≤ 2147483647 →
      0 < nthAllocatedId i ∧ nthAllocatedId i < nthAllocatedId j) ∧
    (∀ (s : RpcState) (req : Request),
      ((doStep s req).1).highest = wrap32 (s.highest + 1) ∧
      ((doStep s req).2.1).req = wrap32 (s.highest + 1) ∧
      ((doStep s req).2.1).flag.json = true ∧
      ((doStep s req).1).reqs.lookup (wrap32 (s.highest + 1)) = some (doStep s req).2.2 ∧
      ((doStep s req).2.2).stream.reqId = wrap32 (s.highest + 1) ∧
      ((doStep s req).2.2).id = wrap32 (s.highest + 1)) := by
  constructor
  · intro i j hi hij hj
    have hvi : nthAllocatedId i = (i : Int) := by
      rw [nthAllocatedId_eq i hi, wrap32_eq_self] <;> omega
    have hvj : nthAllocatedId j = (j : Int) := by
      rw [nthAllocatedId_eq j (by omega), wrap32_eq_self] <;> omega
    rw [hvi, hvj]
    constructor <;> [exact_mod_cast hi; exact_mod_cast hij]
  · intro s req
    refine ⟨rfl, rfl, rfl, ?_, rfl, rfl⟩
    simp [doStep, List.lookup]

/-- Witness for the amended C1 theorem at concrete inputs. -/
theorem do_ids_strictly_increasing_before_overflow_witness :
    (0 < nthAllocatedId 1 ∧ nthAllocatedId 1 < nthAllocatedId 2) ∧
    (((doStep initRpc (mkAsyncReq ["whoami"] "[]")).1).highest =
        wrap32 (initRpc.highest + 1) ∧
      ((doStep initRpc (mkAsyncReq ["whoami"] "[]")).2.1).req =
        wrap32 (initRpc.highest + 1) ∧
      ((doStep initRpc (mkAsyncReq ["whoami"] "[]")).2.1).flag.json = true ∧
      ((doStep initRpc (mkAsyncReq ["whoami"] "[]")).1).reqs.lookup
          (wrap32 (initRpc.highest + 1)) =
        some (doStep initRpc (mkAsyncReq ["whoami"] "[]")).2.2 ∧
      ((doStep initRpc (mkAsyncReq ["whoami"] "[]")).2.2).stream.reqId =
        wrap32 (initRpc.highest + 1) ∧
      ((doStep initRpc (mkAsyncReq ["whoami"] "[]")).2.2).id =
        wrap32 (initRpc.highest + 1)) :=
  ⟨do_ids_strictly_increasing_before_overflow.1 1 2 (by norm_num) (by norm_num) (by norm_num),
   do_ids_strictly_increasing_before_overflow.2 initRpc (mkAsyncReq ["whoami"] "[]")⟩

/-! ## Serve loop end-or-error handling (claim C2), termination (claim C3),
ParseRequest (claims C4, C5), buffer capacity (claim C8) -/

theorem lookup_filter_ne (l : List (Int × Request)) (i : Int) :
    (l.filter (fun p => p.1 ≠ i)).lookup i = none := by
  induction l with
  | nil => rfl
  | cons hd tl ih =>
    obtain ⟨k, v⟩ := hd
    rw [List.filter_cons]
    by_cases h : k = i
    · subst h
      simp [ih]
      exact fun a b _ hak hka => hak hka.symm
    · have hik : (i == k) = false := by
        simp only [beq_eq_false_iff_ne, ne_eq]
        exact fun hh => h hh.symm
      simp [h, List.lookup, hik, ih]
      exact fun a b _ hak hka => hak hka.symm

/-- C2: when the serve loop reads an endOrError frame for an id present
in the reqs table, the handler context of the request is cancelled
(abort); a body equal to the four bytes of the word true closes both
directions of the stream with a nil error, so reads observe end-of-stream;
any other body that parses as a CallError closes the stream with that
CallError; in both cases the request, now closed in both directions, is
removed from the reqs table. -/
theorem serve_end_err_routing :
    ∀ (s : RpcState) (i : Int) (req : Request) (body : List Char),
      s.reqs.lookup i = some req → req.id = i →
      ((isTrue body = true →
        serveEndErr s i body = EndErrStep.cont
          { s with reqs := s.reqs.filter (fun p => p.1 ≠ i) }
          (some (requestCloseWithError { req with aborted := true } none))) ∧
       (∀ ce, isTrue body = false → parseError body = Except.ok ce →
        serveEndErr s i body = EndErrStep.cont
          { s with reqs := s.reqs.filter (fun p => p.1 ≠ i) }
          (some (requestCloseWithError { req with aborted := true }
            (some (RpcErr.callErr ce))))) ∧
       (∀ e, (requestCloseWithError { req with aborted := true } e).aborted = true ∧
        (requestCloseWithError { req with aborted := true } e).stream.inClosed = true ∧
        (requestCloseWithError { req with aborted := true } e).stream.outClosed = true ∧
        (requestCloseWithError { req with aborted := true } e).stream.inErr = e) ∧
       (s.reqs.filter (fun p => p.1 ≠ i)).lookup i = none) := by
  intro s i req body hlook hid
  refine ⟨?_, ?_, ?_, lookup_filter_ne s.reqs i⟩
  · intro ht
    simp [serveEndErr, hlook, ht, closeStreamStep, hid]
  · intro ce hf hok
    simp [serveEndErr, hlook, hf, hok, closeStreamStep, hid]
  · intro e
    exact ⟨rfl, rfl, rfl, rfl⟩

def c2req : Request := mkAsyncReq ["whoami"] "[]"

def c2state : RpcState :=
  { reqs := [(1, { c2req with id := 1 })], highest := 1,
    terminated := false, cancelled := false, pkrClosed := false }

/-- Witness for the C2 theorem at a concrete state and request. -/
theorem serve_end_err_routing_witness :
    ((isTrue ['t', 'r', 'u', 'e'] = true →
      serveEndErr c2state 1 ['t', 'r', 'u', 'e'] = EndErrStep.cont
        { c2state with reqs := c2state.reqs.filter (fun p => p.1 ≠ 1) }
        (some (requestCloseWithError { { c2req with id := 1 } with aborted := true } none))) ∧
     (∀ ce, isTrue ['t', 'r', 'u', 'e'] = false →
      parseError ['t', 'r', 'u', 'e'] = Except.ok ce →
      serveEndErr c2state 1 ['t', 'r', 'u', 'e'] = EndErrStep.cont
        { c2state with reqs := c2state.reqs.filter (fun p => p.1 ≠ 1) }
        (some (requestCloseWithError { { c2req with id := 1 } with aborted := true }
          (some (RpcErr.callErr ce))))) ∧
     (∀ e, (requestCloseWithError { { c2req with id := 1 } with aborted := true } e).aborted = true ∧
      (requestCloseWithError { { c2req with id := 1 } with aborted := true } e).stream.inClosed = true ∧
      (requestCloseWithError { { c2req with id := 1 } with aborted := true } e).stream.outClosed = true ∧
      (requestCloseWithError { { c2req with id := 1 } with aborted := true } e).stream.inErr = e) ∧
     (c2state.reqs.filter (fun p => p.1 ≠ 1)).lookup 1 = none) :=
  serve_end_err_routing c2state 1 { c2req with id := 1 } ['t', 'r', 'u', 'e']
    (by decide) (by decide)

/-- C3: Terminate sets the terminated flag, cancels the root context,
closes every request still in the reqs table in both directions with
ErrSessionTerminated, and closes the transport packer; once terminated is
set, the serve loop absorbs end-of-stream, already-closed and every other
read error, returning a nil error from Serve. -/
theorem terminate_session :
    ∀ (s : RpcState) (e : String),
      (terminate s).terminated = true ∧
      (terminate s).cancelled = true ∧
      (terminate s).pkrClosed = true ∧
      (∀ p, p ∈ (terminate s).reqs →
        p.2.stream.inClosed = true ∧ p.2.stream.outClosed = true ∧
        p.2.stream.inErr = some ErrSessionTerminated) ∧
      serveReadCheck (terminate s).terminated (ReadResult.readErr e) = some none ∧
      serveReadCheck (terminate s).terminated ReadResult.eos = some none ∧
      serveReadCheck (terminate s).terminated ReadResult.alreadyClosed = some none := by
  intro s e
  refine ⟨rfl, rfl, rfl, ?_, ?_, rfl, rfl⟩
  · intro p hp
    simp only [terminate, List.mem_map] at hp
    obtain ⟨pq, _, rfl⟩ := hp
    exact ⟨rfl, rfl, rfl⟩
  · simp [terminate, serveReadCheck]

/-- Witness for the C3 theorem at a concrete state with one live
request. -/
theorem terminate_session_witness :
    (terminate c2state).terminated = true ∧
    (terminate c2state).cancelled = true ∧
    (terminate c2state).pkrClosed = true ∧
    ((1, requestCloseWithError { c2req with id := 1 } (some ErrSessionTerminated)) ∈
        (terminate c2state).reqs →
      (requestCloseWithError { c2req with id := 1 }
          (some ErrSessionTerminated)).stream.inClosed = true ∧
      (requestCloseWithError { c2req with id := 1 }
          (some ErrSessionTerminated)).stream.outClosed = true ∧
      (requestCloseWithError { c2req with id := 1 }
          (some ErrSessionTerminated)).stream.inErr = some ErrSessionTerminated) ∧
    serveReadCheck (terminate c2state).terminated
      (ReadResult.readErr ("use of closed conn")) = some none ∧
    serveReadCheck (terminate c2state).terminated ReadResult.eos = some none ∧
    serveReadCheck (terminate c2state).terminated ReadResult.alreadyClosed = some none := by
  have h := terminate_session c2state ("use of closed conn")
  exact ⟨h.1, h.2.1, h.2.2.1,
    h.2.2.2.1 (1, requestCloseWithError { c2req with id := 1 } (some ErrSessionTerminated)),
    h.2.2.2.2.1, h.2.2.2.2.2.1, h.2.2.2.2.2.2⟩

/-- C4: for an accepted initiation packet (json flag set, negative id),
ParseRequest assigns the stream capabilities by call type: with the stream
flag, duplex gets input multiple and output multiple, source input none
and output multiple, sink input multiple and output none, and any other
type is an unhandled request type error; without the stream flag an empty
type defaults to async, async gets input none and output once, and any
other type is an unhandled request type error. -/
theorem parse_request_capability_table :
    ∀ (hdr : Header) (rb : ReqBody),
      hdr.flag.json = true → hdr.req < 0 →
      ((hdr.flag.stream = true → rb.type = "duplex" →
        (parseRequest hdr (Except.ok rb)).map (fun r => (r.stream.inCap, r.stream.outCap)) =
          Except.ok (StreamCap.multiple, StreamCap.multiple)) ∧
       (hdr.flag.stream = true → rb.type = "source" →
        (parseRequest hdr (Except.ok rb)).map (fun r => (r.stream.inCap, r.stream.outCap)) =
          Except.ok (StreamCap.none, StreamCap.multiple)) ∧
       (hdr.flag.stream = true → rb.type = "sink" →
        (parseRequest hdr (Except.ok rb)).map (fun r => (r.stream.inCap, r.stream.outCap)) =
          Except.ok (StreamCap.multiple, StreamCap.none)) ∧
       (hdr.flag.stream = true → rb.type ≠ "duplex" → rb.type ≠ "source" →
        rb.type ≠ "sink" →
        parseRequest hdr (Except.ok rb) =
          Except.error ("unhandled request type: " ++ rb.type)) ∧
       (hdr.flag.stream = false → (rb.type = "" ∨ rb.type = "async") →
        (parseRequest hdr (Except.ok rb)).map (fun r => (r.stream.inCap, r.stream.outCap)) =
          Except.ok (StreamCap.none, StreamCap.once)) ∧
       (hdr.flag.stream = false → rb.type ≠ "" → rb.type ≠ "async" →
        parseRequest hdr (Except.ok rb) =
          Except.error ("unhandled request type: " ++ rb.type))) := by
  intro hdr rb hjson hneg
  have hj : ¬ ¬ hdr.flag.json = true := by simp [hjson]
  have hq : ¬ (0 ≤ hdr.req) := by omega
  refine ⟨?_, ?_, ?_, ?_, ?_, ?_⟩
  · intro hs ht
    simp [parseRequest, hjson, hq, hs, ht, mkIncomingReq, newStream, Except.map]
  · intro hs ht
    simp [parseRequest, hjson, hq, hs, ht, mkIncomingReq, newStream, Except.map]
  · intro hs ht
    simp [parseRequest, hjson, hq, hs, ht, mkIncomingReq, newStream, Except.map]
  · intro hs h1 h2 h3
    simp [parseRequest, hjson, hq, hs, h1, h2, h3]
  · intro hs ht
    rcases ht with ht | ht <;>
      simp [parseRequest, hjson, hq, hs, ht, mkIncomingReq, newStream, Except.map]
  · intro hs h1 h2
    simp [parseRequest, hjson, hq, hs, h1, h2]

def c4hdrStream : Header :=
  { flag := { str := false, json := true, endErr := false, stream := true },
    req := -1, len := 0 }

/-- Witness for the C4 theorem at a concrete header and body. -/
theorem parse_request_capability_table_witness :
    ((c4hdrStream.flag.stream = true → ReqBody.type ⟨["x"], "duplex", "[]"⟩ = "duplex" →
      (parseRequest c4hdrStream (Except.ok ⟨["x"], "duplex", "[]"⟩)).map
          (fun r => (r.stream.inCap, r.stream.outCap)) =
        Except.ok (StreamCap.multiple, StreamCap.multiple)) ∧
     (c4hdrStream.flag.stream = true → ReqBody.type ⟨["x"], "duplex", "[]"⟩ = "source" →
      (parseRequest c4hdrStream (Except.ok ⟨["x"], "duplex", "[]"⟩)).map
          (fun r => (r.stream.inCap, r.stream.outCap)) =
        Except.ok (StreamCap.none, StreamCap.multiple)) ∧
     (c4hdrStream.flag.stream = true → ReqBody.type ⟨["x"], "duplex", "[]"⟩ = "sink" →
      (parseRequest c4hdrStream (Except.ok ⟨["x"], "duplex", "[]"⟩)).map
          (fun r => (r.stream.inCap, r.stream.outCap)) =
        Except.ok (StreamCap.multiple, StreamCap.none)) ∧
     (c4hdrStream.flag.stream = true → ReqBody.type ⟨["x"], "duplex", "[]"⟩ ≠ "duplex" →
      ReqBody.type ⟨["x"], "duplex", "[]"⟩ ≠ "source" →
      ReqBody.type ⟨["x"], "duplex", "[]"⟩ ≠ "sink" →
      parseRequest c4hdrStream (Except.ok ⟨["x"], "duplex", "[]"⟩) =
        Except.error ("unhandled request type: " ++ ReqBody.type ⟨["x"], "duplex", "[]"⟩)) ∧
     (c4hdrStream.flag.stream = false →
      (ReqBody.type ⟨["x"], "duplex", "[]"⟩ = "" ∨
        ReqBody.type ⟨["x"], "duplex", "[]"⟩ = "async") →
      (parseRequest c4hdrStream (Except.ok ⟨["x"], "duplex", "[]"⟩)).map
          (fun r => (r.stream.inCap, r.stream.outCap)) =
        Except.ok (StreamCap.none, StreamCap.once)) ∧
     (c4hdrStream.flag.stream = false → ReqBody.type ⟨["x"], "duplex", "[]"⟩ ≠ "" →
      ReqBody.type ⟨["x"], "duplex", "[]"⟩ ≠ "async" →
      parseRequest c4hdrStream (Except.ok ⟨["x"], "duplex", "[]"⟩) =
        Except.error ("unhandled request type: " ++ ReqBody.type ⟨["x"], "duplex", "[]"⟩))) :=
  parse_request_capability_table c4hdrStream ⟨["x"], "duplex", "[]"⟩ rfl (by decide)

/-- C5: ParseRequest returns an error and builds no request when the
packet lacks the JSON flag or carries a non-negative request id; a new
incoming request is only built from a packet with the JSON flag and a
negative (inverted) request id. -/
theorem parse_request_rejects_bad_header :
    ∀ (hdr : Header) (body : Except String ReqBody),
      (hdr.flag.json = false → parseRequest hdr body = Except.error ("expected JSON flag")) ∧
      (hdr.flag.json = true → 0 ≤ hdr.req →
        parseRequest hdr body = Except.error ("expected negative request id")) ∧
      (∀ r, parseRequest hdr body = Except.ok r → hdr.flag.json = true ∧ hdr.req < 0) := by
  intro hdr body
  refine ⟨?_, ?_, ?_⟩
  · intro h
    simp [parseRequest, h]
  · intro hj hq
    simp [parseRequest, hj, hq]
  · intro r h
    by_cases hj : hdr.flag.json = true
    · by_cases hq : 0 ≤ hdr.req
      · simp [parseRequest, hj, hq] at h
      · exact ⟨hj, by omega⟩
    · have hjf : hdr.flag.json = false := by
        simpa using hj
      simp [parseRequest, hjf] at h

def c5hdrBad : Header :=
  { flag := { str := false, json := true, endErr := false, stream := false },
    req := 3, len := 0 }

/-- Witness for the C5 theorem at a concrete header with a positive
request id. -/
theorem parse_request_rejects_bad_header_witness :
    (c5hdrBad.flag.json = false →
      parseRequest c5hdrBad (Except.ok ⟨["x"], "async", "[]"⟩) =
        Except.error ("expected JSON flag")) ∧
    (c5hdrBad.flag.json = true → 0 ≤ c5hdrBad.req →
      parseRequest c5hdrBad (Except.ok ⟨["x"], "async", "[]"⟩) =
        Except.error ("expected negative request id")) ∧
    (∀ r, parseRequest c5hdrBad (Except.ok ⟨["x"], "async", "[]"⟩) = Except.ok r →
      c5hdrBad.flag.json = true ∧ c5hdrBad.req < 0) :=
  parse_request_rejects_bad_header c5hdrBad (Except.ok ⟨["x"], "async", "[]"⟩)

/-- C8: every per-request inbound buffered queue the session creates, in
Async, Sink, Duplex, and in ParseRequest for incoming calls, has capacity
bufSize, and bufSize is 150. -/
theorem inbound_queue_capacity :
    ∀ (m : List String) (a : String) (hdr : Header) (body : Except String ReqBody)
      (r : Request),
      (mkAsyncReq m a).inQueueCap = some bufSize ∧
      (mkSinkReq m a).inQueueCap = some bufSize ∧
      (mkDuplexReq m a).inQueueCap = some bufSize ∧
      (parseRequest hdr body = Except.ok r → r.inQueueCap = some bufSize) ∧
      bufSize = 150 := by
  intro m a hdr body r
  refine ⟨rfl, rfl, rfl, ?_, rfl⟩
  intro h
  unfold parseRequest at h
  by_cases hj : ¬ hdr.flag.json = true
  · rw [if_pos hj] at h
    exact Except.noConfusion h
  rw [if_neg hj] at h
  by_cases hq : 0 ≤ hdr.req
  · rw [if_pos hq] at h
    exact Except.noConfusion h
  rw [if_neg hq] at h
  cases body with
  | error e => simp at h
  | ok rb =>
    dsimp only [] at h
    by_cases hs : hdr.flag.stream = true
    · rw [if_pos hs] at h
      by_cases h1 : rb.type = "duplex"
      · rw [if_pos h1, Except.ok.injEq] at h
        rw [← h]
        rfl
      rw [if_neg h1] at h
      by_cases h2 : rb.type = "source"
      · rw [if_pos h2, Except.ok.injEq] at h
        rw [← h]
        rfl
      rw [if_neg h2] at h
      by_cases h3 : rb.type = "sink"
      · rw [if_pos h3, Except.ok.injEq] at h
        rw [← h]
        rfl
      rw [if_neg h3] at h
      exact Except.noConfusion h
    · rw [if_neg hs] at h
      by_cases hE : rb.type = ""
      · simp only [if_pos hE, ne_eq, not_true_eq_false, if_false, reduceIte,
          Except.ok.injEq] at h
        rw [← h]
        rfl
      · simp only [if_neg hE] at h
        by_cases h4 : rb.type = "async"
        · simp only [h4, ne_eq, not_true_eq_false, if_false, reduceIte,
            Except.ok.injEq] at h
          rw [← h]
          rfl
        · simp only [ne_eq, h4, not_false_eq_true, if_true, reduceIte] at h
          exact Except.noConfusion h

/-- Witness for the C8 theorem at concrete inputs. -/
theorem inbound_queue_capacity_witness :
    (mkAsyncReq ["whoami"] "[]").inQueueCap = some bufSize ∧
    (mkSinkReq ["whoami"] "[]").inQueueCap = some bufSize ∧
    (mkDuplexReq ["whoami"] "[]").inQueueCap = some bufSize ∧
    (parseRequest c4hdrStream (Except.ok ⟨["x"], "duplex", "[]"⟩) =
        Except.ok (mkIncomingReq ("duplex") ⟨["x"], "duplex", "[]"⟩ (-1)
          StreamCap.multiple StreamCap.multiple) →
      (mkIncomingReq ("duplex") ⟨["x"], "duplex", "[]"⟩ (-1)
        StreamCap.multiple StreamCap.multiple).inQueueCap = some bufSize) ∧
    bufSize = 150 :=
  inbound_queue_capacity ["whoami"] "[]" c4hdrStream (Except.ok ⟨["x"], "duplex", "[]"⟩)
    (mkIncomingReq ("duplex") ⟨["x"], "duplex", "[]"⟩ (-1) StreamCap.multiple StreamCap.multiple)

/-! ## ByteSource close behaviour (claim C7) -/

def c7AfterErr : ByteSourceState :=
  (bsCloseWithError bsInit (some (BSErr.err ("test")))).1

/-- C7 is violated by the code: ByteSource.CloseWithError stores its
error and closes the closed channel without checking any prior state, so
Close after CloseWithError e overwrites the terminal error e with
end-of-stream, and the second of two Close calls closes an already closed
channel, a runtime panic rather than a no-op; only Cancel guards against
an already failed source.  The boolean component records the panic. -/
theorem byte_source_close_overwrites :
    c7AfterErr.failed = some (BSErr.err ("test")) ∧
    (bsClose c7AfterErr).1.failed = some BSErr.eos ∧
    (bsClose c7AfterErr).2 = true ∧
    (bsClose (bsClose bsInit).1).2 = true ∧
    bsCancel c7AfterErr (some (BSErr.err ("other"))) = (c7AfterErr, false) := by
  refine ⟨rfl, rfl, rfl, rfl, rfl⟩

/-! ## Payload routing on an input-none stream (claim C9) -/

def c9body : ReqBody := { name := ["whoami"], type := "source", args := "[]" }

def c9req : Request :=
  mkIncomingReq ("source") c9body (-1) StreamCap.none StreamCap.multiple

def c9state : RpcState :=
  { reqs := [(-1, c9req)], highest := 0,
    terminated := false, cancelled := false, pkrClosed := false }

/-- C9 is violated by the code: an incoming source call yields a request
whose stream has input capability none, yet the serve loop delivers a
payload frame for it to the inbound queue (it checks only whether req.in
is nil) and never surfaces a protocol error. -/
theorem serve_payload_ignores_input_capability :
    parseRequest c4hdrStream (Except.ok c9body) = Except.ok c9req ∧
    c9req.stream.inCap = StreamCap.none ∧
    servePayload c9state (-1) = PayloadStep.delivered c9req ∧
    ∀ e, servePayload c9state (-1) ≠ PayloadStep.protocolError e := by
  refine ⟨rfl, rfl, rfl, ?_⟩
  intro e h
  have h3 : servePayload c9state (-1) = PayloadStep.delivered c9req := rfl
  rw [h3] at h
  exact PayloadStep.noConfusion h

/-! ## frameBuffer refinement to a FIFO queue (claim C10) -/

theorem de32_le32 (n : Nat) (h : n < 4294967296) : de32 (le32 n) = n := by
  have hx : de32 (le32 n) = n % 256 + 256 * (n / 256 % 256) + 65536 * (n / 65536 % 256) +
      16777216 * (n / 16777216 % 256) := rfl
  rw [hx]
  omega

theorem copyBody_ok (s : FrameBufferState) (b : List Nat) (hb : b.length < 4294967296) :
    copyBody b.length b s =
      ({ store := s.store ++ le32 b.length ++ b,
         currentFrameTotal := s.currentFrameTotal,
         currentFrameRead := s.currentFrameRead,
         frames := s.frames + 1 }, true) := by
  simp [copyBody, Nat.mod_eq_of_lt hb]

theorem aligned_copy (s : FrameBufferState) (r : List Nat) (q : List (List Nat))
    (b : List Nat) (hal : Aligned s r q) (hb : b.length < 4294967296) :
    (copyBody b.length b s).2 = true ∧
    Aligned (copyBody b.length b s).1 r (q ++ [b]) := by
  obtain ⟨h1, h2, h3, h4, h5⟩ := hal
  rw [copyBody_ok s b hb]
  refine ⟨rfl, ?_, h2, h3, ?_, ?_⟩
  · show s.store ++ le32 b.length ++ b = r ++ ((q ++ [b]).map encFrame).flatten
    rw [h1]
    simp [encFrame, List.append_assoc]
  · show s.frames + 1 = (q ++ [b]).length
    simp [h4]
  · intro x hx
    rcases List.mem_append.mp hx with hx | hx
    · exact h5 x hx
    · simp only [List.mem_singleton] at hx
      subst hx
      exact hb

/-- The frameBuffer state right after a successful getNextFrameReader for
the frame b, with the frames q still stored behind it. -/
def fbAfterGet (s : FrameBufferState) (b : List Nat) (q : List (List Nat)) :
    FrameBufferState :=
  { store := b ++ (q.map encFrame).flatten,
    currentFrameTotal := b.length,
    currentFrameRead := 0,
    frames := s.frames - 1 }

theorem aligned_get (s : FrameBufferState) (r b : List Nat) (q : List (List Nat))
    (hal : Aligned s r (b :: q)) :
    getNextFrameReader s = Except.ok (b.length, b, fbAfterGet s b q) ∧
    Aligned (fbAfterGet s b q) b q := by
  obtain ⟨h1, h2, h3, h4, h5⟩ := hal
  have hblt : b.length < 4294967296 := h5 b (List.mem_cons_self b q)
  have hstore1 : (if s.currentFrameTotal ≠ 0 then
      s.store.drop (s.currentFrameTotal - s.currentFrameRead)
    else s.store) = le32 b.length ++ (b ++ (q.map encFrame).flatten) := by
    have hx : ((b :: q).map encFrame).flatten =
        le32 b.length ++ (b ++ (q.map encFrame).flatten) := by
      simp [encFrame, List.append_assoc]
    by_cases hz : s.currentFrameTotal ≠ 0
    · rw [if_pos hz, h3, h1, List.drop_left]
      exact hx
    · rw [if_neg hz]
      push_neg at hz
      have hr : r = [] := by
        have hrl : r.length = 0 := by omega
        exact List.length_eq_zero.mp hrl
      rw [h1, hr, List.nil_append]
      exact hx
  have hlen : ¬ ((le32 b.length ++ (b ++ (q.map encFrame).flatten)).length < 4) := by
    simp [le32]
  have htake : (le32 b.length ++ (b ++ (q.map encFrame).flatten)).take 4 = le32 b.length :=
    List.take_left' rfl
  have hdrop : (le32 b.length ++ (b ++ (q.map encFrame).flatten)).drop 4 =
      b ++ (q.map encFrame).flatten :=
    List.drop_left' rfl
  have hget : getNextFrameReader s = Except.ok (b.length, b, fbAfterGet s b q) := by
    unfold getNextFrameReader fbAfterGet
    rw [hstore1, if_neg hlen, htake, hdrop, de32_le32 b.length hblt]
    simp [List.take_left]
  refine ⟨hget, rfl, Nat.zero_le _, by simp [fbAfterGet], ?_, ?_⟩
  · show s.frames - 1 = q.length
    rw [h4]
    simp
  · intro x hx
    exact h5 x (List.mem_cons_of_mem b hx)

theorem aligned_consume (k : Nat) (s : FrameBufferState) (r : List Nat)
    (q : List (List Nat)) (hal : Aligned s r q) :
    Aligned (consumeFrame k s) (r.drop (min k r.length)) q := by
  obtain ⟨h1, h2, h3, h4, h5⟩ := hal
  have hsl : s.store.length = r.length + (q.map encFrame).flatten.length := by
    rw [h1]
    simp
  have havail : min (s.currentFrameTotal - s.currentFrameRead) s.store.length = r.length := by
    rw [h3, hsl]
    omega
  have hk1 : min k (min (s.currentFrameTotal - s.currentFrameRead) s.store.length) =
      min k r.length := by rw [havail]
  have hkle : min k r.length ≤ r.length := Nat.min_le_right k r.length
  refine ⟨?_, ?_, ?_, h4, h5⟩
  · show s.store.drop (min k (min (s.currentFrameTotal - s.currentFrameRead)
      s.store.length)) = r.drop (min k r.length) ++ (q.map encFrame).flatten
    rw [hk1, h1, List.drop_append_eq_append_drop, Nat.sub_eq_zero_of_le hkle,
      List.drop_zero]
  · show s.currentFrameRead + min k (min (s.currentFrameTotal - s.currentFrameRead)
      s.store.length) ≤ s.currentFrameTotal
    rw [hk1]
    omega
  · show s.currentFrameTotal - (s.currentFrameRead + min k
      (min (s.currentFrameTotal - s.currentFrameRead) s.store.length)) =
      (r.drop (min k r.length)).length
    rw [hk1, List.length_drop]
    omega

theorem fbRun_fifo : ∀ (ops : List FBOp) (s : FrameBufferState) (r : List Nat)
    (q : List (List Nat)), Aligned s r q → validOps q ops = true →
    (fbRun s ops).2 = (fifoRun q ops).1 ∧
    ∃ rr, Aligned (fbRun s ops).1 rr (fifoRun q ops).2 := by
  intro ops
  induction ops with
  | nil =>
    intro s r q hal _
    exact ⟨rfl, ⟨r, hal⟩⟩
  | cons op ops ih =>
    intro s r q hal hv
    cases op with
    | copy b =>
      simp only [validOps, Bool.and_eq_true, decide_eq_true_eq] at hv
      obtain ⟨hb, hv2⟩ := hv
      obtain ⟨_, hal2⟩ := aligned_copy s r q b hal hb
      simp only [fbRun, fifoRun]
      exact ih (copyBody b.length b s).1 r (q ++ [b]) hal2 hv2
    | get k =>
      simp only [validOps, Bool.and_eq_true] at hv
      obtain ⟨hq, hv2⟩ := hv
      cases q with
      | nil => simp at hq
      | cons b q1 =>
        obtain ⟨hget, hal1⟩ := aligned_get s r b q1 hal
        have hal2 := aligned_consume k (fbAfterGet s b q1) b q1 hal1
        have hrec := ih (consumeFrame k (fbAfterGet s b q1)) (b.drop (min k b.length)) q1
          hal2 (by simpa using hv2)
        simp only [fbRun, fifoRun, hget]
        exact ⟨by rw [hrec.1], hrec.2⟩

theorem fifo_queue_count : ∀ (ops : List FBOp) (q : List (List Nat)),
    validOps q ops = true →
    (fifoRun q ops).2.length + countGets ops = q.length + countCopies ops := by
  intro ops
  induction ops with
  | nil =>
    intro q _
    simp [fifoRun, countGets, countCopies]
  | cons op ops ih =>
    intro q hv
    cases op with
    | copy b =>
      simp only [validOps, Bool.and_eq_true, decide_eq_true_eq] at hv
      have hx := ih (q ++ [b]) hv.2
      simp only [fifoRun, countGets, countCopies]
      simp only [List.length_append, List.length_singleton] at hx
      omega
    | get k =>
      simp only [validOps, Bool.and_eq_true] at hv
      obtain ⟨hq, hv2⟩ := hv
      cases q with
      | nil => simp at hq
      | cons b q1 =>
        have hx := ih q1 (by simpa using hv2)
        simp only [fifoRun, countGets, countCopies, List.length_cons]
        omega

/-- C10: running any valid sequence of copyBody and getNextFrameReader
operations (bodies of uint32 size, no get on an empty buffer, each
returned reader read for an arbitrary number of bytes before the next
operation), the get results equal those of a plain FIFO queue: every
getNextFrameReader returns the oldest not-yet-delivered body, reporting
exactly the byte length passed to the matching copyBody, even when the
previous reader was not fully consumed, because the unread remainder is
discarded first; and the frames counter ends at the number of copyBody
calls minus the number of getNextFrameReader calls. -/
theorem frame_buffer_fifo (ops : List FBOp) (h : validOps [] ops = true) :
    (fbRun fbInit ops).2 = (fifoRun [] ops).1 ∧
    (fbRun fbInit ops).1.frames = countCopies ops - countGets ops := by
  have hal : Aligned fbInit [] [] := by
    refine ⟨rfl, le_refl 0, rfl, rfl, ?_⟩
    intro x hx
    simp at hx
  obtain ⟨h1, rr, h2⟩ := fbRun_fifo ops fbInit [] [] hal h
  refine ⟨h1, ?_⟩
  have hcount := fifo_queue_count ops [] h
  have hframes : (fbRun fbInit ops).1.frames = (fifoRun [] ops).2.length := h2.2.2.2.1
  simp only [List.length_nil] at hcount
  omega

def c10ops : List FBOp :=
  [FBOp.copy [1, 2, 3], FBOp.copy [7, 8], FBOp.get 1, FBOp.get 2]

/-- Witness for the C10 theorem at a concrete operation sequence with a
partially consumed first frame. -/
theorem frame_buffer_fifo_witness :
    validOps [] c10ops = true ∧
    ((fbRun fbInit c10ops).2 = (fifoRun [] c10ops).1 ∧
     (fbRun fbInit c10ops).1.frames = countCopies c10ops - countGets c10ops) :=
  ⟨by decide, frame_buffer_fifo c10ops (by decide)⟩

end Muxrpc
